import Mathlib

/-!
Verification development for the nodelet loader (`src/nodelet/src/loader.cpp`).

The C++ code is shallowly embedded as follows:

* `RegMap` models the registry member `nodelets_`, a
  `std::map<std::string, NodeletPtr>`.  `std::map` keeps its entries in
  ascending key order, so `RegMap` is an association list that the map
  operations keep sorted by key; `mapInsert` performs the sorted insertion
  done by `nodelets_[name] = p`, `mapErase` models `nodelets_.erase(it)`,
  `mapFind` models `nodelets_.find`, and `mapCount` models `nodelets_.count`.
* External collaborators (the pluginlib class loader and `Nodelet::init`)
  are modelled by a `LoadEnv`: the factory either throws a
  `pluginlib::PluginlibException`, returns a null pointer, or returns an
  instance; `init` either succeeds or throws a `pluginlib::PluginlibException`
  (the only exception type the `try` block of `Loader::load` catches).
* Side effects are recorded in an `Event` trace: `ROS_ERROR` diagnostics,
  map insertion/erasure, creation of the two per-unit callback queues,
  the call to `Nodelet::init` (with the remapping table and argv it
  receives), registration of the bond broken-callback, and `disable`.
  `ROS_DEBUG` calls are not modelled; a "diagnostic message" is a
  `ROS_ERROR`, i.e. a `logError` event.
* The destructor `Loader::~Loader` is straight-line code; it is embedded
  as a function on an abstract `LoaderState` together with the ordered
  trace of teardown events it performs.
-/

/-- A loaded nodelet instance (the pointee of a `NodeletPtr`); its identity
is all the claims need. -/
structure Nodelet where
  id : Nat
deriving DecidableEq, Repr

/-- The registry map `nodelets_` (`std::map<std::string, NodeletPtr>`),
as an association list kept in ascending key order. -/
def RegMap := List (String × Nodelet)

instance : DecidableEq RegMap := by
  unfold RegMap
  infer_instance

instance : Repr RegMap := by
  unfold RegMap
  infer_instance

/-- The strict ordering `std::map<std::string, ...>` sorts its keys by:
lexicographic comparison of the character sequences
(`std::string::operator<`). -/
def strLt (s t : String) : Prop :=
  s.data < t.data

instance (s t : String) : Decidable (strLt s t) := by
  unfold strLt
  infer_instance

/-- `m[k] = v` on a `std::map`: sorted insertion, replacing an existing
entry with an equal key. -/
def mapInsert {α : Type} (m : List (String × α)) (k : String) (v : α) :
    List (String × α) :=
  match m with
  | [] => [(k, v)]
  | e :: rest =>
    if strLt k e.1 then (k, v) :: e :: rest
    else if k = e.1 then (k, v) :: rest
    else e :: mapInsert rest k v

/-- `m.find(k)`, returning the mapped value when the key is present. -/
def mapFind {α : Type} (m : List (String × α)) (k : String) : Option α :=
  match m with
  | [] => none
  | e :: rest => if k = e.1 then some e.2 else mapFind rest k

/-- `m.count(k)`: the number of entries whose key is `k`. -/
def mapCount {α : Type} (m : List (String × α)) (k : String) : Nat :=
  match m with
  | [] => 0
  | e :: rest => (if e.1 = k then 1 else 0) + mapCount rest k

/-- `m.erase(it)` where `it = m.find(k)` points at the first entry with
key `k`. -/
def mapErase {α : Type} (m : List (String × α)) (k : String) :
    List (String × α) :=
  match m with
  | [] => []
  | e :: rest => if k = e.1 then rest else e :: mapErase rest k

/-- The keys of the map in iteration order (`std::map` iterates in
ascending key order, which the sorted representation realises). -/
def mapKeys {α : Type} (m : List (String × α)) : List String :=
  m.map Prod.fst

/-- The `std::map` representation invariant: keys strictly ascending
(hence unique). -/
def keysSorted {α : Type} (m : List (String × α)) : Prop :=
  m.Pairwise (fun a b => strLt a.1 b.1)

instance {α : Type} (m : List (String × α)) : Decidable (keysSorted m) := by
  unfold keysSorted
  infer_instance

/-- Outcome of `loader_->createClassInstance(type)` (pluginlib class
loader, an external collaborator). -/
inductive FactoryOutcome where
  /-- `createClassInstance` threw a `pluginlib::PluginlibException`. -/
  | throwsPluginlib (what : String)
  /-- `createClassInstance` returned a null pointer. -/
  | nullInstance
  /-- `createClassInstance` returned an instance. -/
  | ok (p : Nodelet)
deriving DecidableEq, Repr

/-- Outcome of `p->init(...)` (nodelet-specific code, an external
collaborator).  Only `pluginlib::PluginlibException` is caught by
`Loader::load`; any other exception would propagate out of `load`
rather than make it return a result, so it is outside this model. -/
inductive InitOutcome where
  | ok
  | throwsPluginlib (what : String)
deriving DecidableEq, Repr

/-- Behaviour of the external collaborators during one `load` call. -/
structure LoadEnv where
  factory : String → FactoryOutcome
  init : String → InitOutcome

/-- Observable side effects of the registry operations. -/
inductive Event where
  /-- A `ROS_ERROR` diagnostic. -/
  | logError (msg : String)
  /-- `nodelets_[name] = p`. -/
  | insertEntry (name : String)
  /-- `p->st_callback_queue_.reset(...)` / `p->mt_callback_queue_.reset(...)`:
  creation of one of the unit's two dispatch queues. -/
  | createQueue (name : String)
  /-- `p->init(name, remappings, my_argv, ...)` with the remapping table
  and argv actually passed. -/
  | initCall (name : String) (remappings : List (String × String))
      (argv : List String)
  /-- `bond->setBrokenCallback(boost::bind(&Loader::unload, this, name))`. -/
  | setBrokenCallback (name : String)
  /-- `it->second->disable()`. -/
  | unitDisable (name : String)
  /-- `nodelets_.erase(it)`. -/
  | eraseEntry (name : String)
  /-- `nodelets_.clear()`. -/
  | clearAll
deriving DecidableEq, Repr

/-- `Loader::load` (loader.cpp lines 172-210): under the registry lock,
reject a duplicate name; otherwise call the factory; on a non-null
instance insert it into `nodelets_`, create its two callback queues, run
`init`, and wire the bond broken-callback.  A `pluginlib::PluginlibException`
from the factory or from `init` is caught and turned into `false`; note
that in the `init` case the entry inserted at line 190 stays in the map.
Returns the result, the registry map afterwards, and the event trace. -/
def Loader.load (env : LoadEnv) (nodelets : RegMap) (name type : String)
    (remappings : List (String × String)) (my_argv : List String)
    (bond : Bool) : Bool × RegMap × List Event :=
  if mapCount nodelets name > 0 then
    (false, nodelets,
      [Event.logError
        ("Cannot load nodelet " ++ name ++ " for one exists with that name already")])
  else
    match env.factory type with
    | FactoryOutcome.throwsPluginlib what =>
      (false, nodelets,
        [Event.logError
          ("Failed to load nodelet [" ++ name ++ "] of type [" ++ type ++ "]: " ++ what)])
    | FactoryOutcome.nullInstance =>
      (false, nodelets, [])
    | FactoryOutcome.ok p =>
      let inserted := mapInsert nodelets name p
      match env.init name with
      | InitOutcome.ok =>
        (true, inserted,
          [Event.insertEntry name, Event.createQueue name, Event.createQueue name,
           Event.initCall name remappings my_argv]
          ++ (if bond then [Event.setBrokenCallback name] else []))
      | InitOutcome.throwsPluginlib what =>
        (false, inserted,
          [Event.insertEntry name, Event.createQueue name, Event.createQueue name,
           Event.initCall name remappings my_argv,
           Event.logError
             ("Failed to load nodelet [" ++ name ++ "] of type [" ++ type ++ "]: " ++ what)])

/-- `Loader::unload` (loader.cpp lines 212-225): under the registry lock,
find the name; if present call `disable()` on the unit, then erase the
entry and return `true`; otherwise return `false` with no side effect. -/
def Loader.unload (nodelets : RegMap) (name : String) :
    Bool × RegMap × List Event :=
  match mapFind nodelets name with
  | some _ =>
    (true, mapErase nodelets name, [Event.unitDisable name, Event.eraseEntry name])
  | none => (false, nodelets, [])

/-- `Loader::clear` (loader.cpp lines 228-235): `nodelets_.clear()` under
the registry lock, always `true`. -/
def Loader.clear (_nodelets : RegMap) : Bool × RegMap × List Event :=
  (true, [], [Event.clearAll])

/-- `Loader::listLoadedNodelets` (loader.cpp lines 238-248): iterate the
map from `begin()` to `end()` pushing each key. -/
def Loader.listLoadedNodelets (nodelets : RegMap) : List String :=
  mapKeys nodelets

/-- A `NodeletLoad` service request (`req` in `LoaderROS::serviceLoad`). -/
structure NodeletLoadRequest where
  name : String
  type : String
  remap_source_args : List String
  remap_target_args : List String
  my_argv : List String
  bond_id : String
deriving DecidableEq, Repr

/-- The remapping-table construction loop of `LoaderROS::serviceLoad`
(loader.cpp lines 78-82), run only when the two lists have equal length:
`remappings[ros::names::resolve(src[i])] = ros::names::resolve(tgt[i])`
for each index, into an initially empty `M_string` (a
`std::map<std::string, std::string>`).  `resolve` stands for the external
`ros::names::resolve`. -/
def LoaderROS.buildRemappings (resolve : String → String)
    (srcs tgts : List String) : List (String × String) :=
  (List.zip srcs tgts).foldl
    (fun acc p => mapInsert acc (resolve p.1) (resolve p.2)) []

/-- `LoaderROS::serviceLoad` (loader.cpp lines 67-96): build the remapping
table — on a length mismatch between `remap_source_args` and
`remap_target_args` only log `ROS_ERROR` and leave the table empty — then
call `Loader::load` and return its result as `res.success`.  A non-empty
`bond_id` makes it pass a bond to `load`. -/
def LoaderROS.serviceLoad (env : LoadEnv) (resolve : String → String)
    (nodelets : RegMap) (req : NodeletLoadRequest) :
    Bool × RegMap × List Event :=
  if req.remap_source_args.length ≠ req.remap_target_args.length then
    let r := Loader.load env nodelets req.name req.type [] req.my_argv
      (req.bond_id ≠ "")
    (r.1, r.2.1,
      Event.logError "Bad remapppings provided, target and source of different length"
        :: r.2.2)
  else
    Loader.load env nodelets req.name req.type
      (LoaderROS.buildRemappings resolve req.remap_source_args req.remap_target_args)
      req.my_argv (req.bond_id ≠ "")

/-- The members of `Loader` that the destructor acts on. -/
structure LoaderState where
  /-- `services_` (the `LoaderROS` front-end) is alive. -/
  servicesPresent : Bool
  /-- The worker threads of `callback_manager_` are running. -/
  poolRunning : Bool
  /-- The `callback_manager_` object itself has not been released. -/
  poolPresent : Bool
  /-- `nodelets_`. -/
  nodelets : RegMap
deriving DecidableEq, Repr

/-- The teardown steps of `Loader::~Loader`. -/
inductive TeardownEvent where
  /-- `services_.reset()`. -/
  | servicesReset
  /-- `callback_manager_->stop()`. -/
  | poolStop
  /-- `nodelets_.clear()`. -/
  | unitsClear
  /-- `callback_manager_.reset()`. -/
  | poolRelease
deriving DecidableEq, Repr

/-- The order in which `Loader::~Loader` (loader.cpp lines 158-170)
performs its teardown steps. -/
def Loader.destructorTrace : List TeardownEvent :=
  [TeardownEvent.servicesReset, TeardownEvent.poolStop,
   TeardownEvent.unitsClear, TeardownEvent.poolRelease]

/-- `Loader::~Loader` as a state transformer: reset the front-end, stop
the worker pool, clear the unit map, release the pool object; paired with
the trace of the steps taken. -/
def Loader.destructor (s : LoaderState) : LoaderState × List TeardownEvent :=
  let s1 : LoaderState := { s with servicesPresent := false }
  let s2 : LoaderState := { s1 with poolRunning := false }
  let s3 : LoaderState := { s2 with nodelets := [] }
  let s4 : LoaderState := { s3 with poolPresent := false }
  (s4, Loader.destructorTrace)

/-- One registry operation, for stating properties of operation
sequences. -/
inductive RegOp where
  | opLoad (name type : String) (remappings : List (String × String))
      (my_argv : List String) (bond : Bool)
  | opUnload (name : String)
  | opClear
deriving DecidableEq, Repr

/-- Apply one registry operation to the registry map. -/
def applyOp (env : LoadEnv) (m : RegMap) : RegOp → Bool × RegMap
  | RegOp.opLoad n t r a b =>
    ((Loader.load env m n t r a b).1, (Loader.load env m n t r a b).2.1)
  | RegOp.opUnload n => ((Loader.unload m n).1, (Loader.unload m n).2.1)
  | RegOp.opClear => ((Loader.clear m).1, (Loader.clear m).2.1)

/-- Run a sequence of registry operations. -/
def runOps (env : LoadEnv) (m : RegMap) : List RegOp → RegMap
  | [] => m
  | op :: rest => runOps env (applyOp env m op).2 rest

/-- An environment in which the factory always constructs an instance and
initialization always succeeds. -/
def okEnv : LoadEnv :=
  { factory := fun _ => FactoryOutcome.ok ⟨0⟩,
    init := fun _ => InitOutcome.ok }

/-- An environment in which the factory constructs an instance but the
initialization entry point throws a `pluginlib::PluginlibException`. -/
def badInitEnv : LoadEnv :=
  { factory := fun _ => FactoryOutcome.ok ⟨0⟩,
    init := fun _ => InitOutcome.throwsPluginlib "boom" }

/-- An environment in which `createClassInstance` always throws a
`pluginlib::PluginlibException`. -/
def throwEnv : LoadEnv :=
  { factory := fun _ => FactoryOutcome.throwsPluginlib "plugin error",
    init := fun _ => InitOutcome.ok }

/-- An environment in which `createClassInstance` always returns a null
pointer. -/
def nullEnv : LoadEnv :=
  { factory := fun _ => FactoryOutcome.nullInstance,
    init := fun _ => InitOutcome.ok }

/-- A load request whose remap source and target lists differ in
length. -/
def mismatchedReq : NodeletLoadRequest :=
  { name := "n", type := "T", remap_source_args := ["a"],
    remap_target_args := [], my_argv := [], bond_id := "" }

/-- The registry after successfully loading a nodelet named "b" into an
empty registry. -/
def regAfterB : RegMap := (Loader.load okEnv [] "b" "T" [] [] false).2.1

/-- The registry after then successfully loading a nodelet named "a". -/
def regAfterBA : RegMap :=
  (Loader.load okEnv regAfterB "a" "T" [] [] false).2.1

/-!
Helper lemmas about the embedded `std::map` operations.
-/

theorem strLt_irrefl (s : String) : ¬ strLt s s :=
  lt_irrefl s.data

theorem mapCount_eq_zero_of_forall_ne {α : Type} {m : List (String × α)}
    {k : String} (h : ∀ x ∈ m, x.1 ≠ k) : mapCount m k = 0 := by
  induction m with
  | nil => rfl
  | cons hd tl ih =>
    have h1 : hd.1 ≠ k := h hd (by simp)
    simp [mapCount, h1, ih (fun x hx => h x (by simp [hx]))]

theorem mapCount_le_one_of_keysSorted {α : Type} {m : List (String × α)}
    (hs : keysSorted m) (k : String) : mapCount m k ≤ 1 := by
  induction m with
  | nil => simp [mapCount]
  | cons hd tl ih =>
    rw [keysSorted, List.pairwise_cons] at hs
    by_cases h1 : hd.1 = k
    · have hz : mapCount tl k = 0 := by
        refine mapCount_eq_zero_of_forall_ne (fun x hx hk => ?_)
        have hlt := hs.1 x hx
        rw [h1, hk] at hlt
        exact strLt_irrefl k hlt
      simp [mapCount, h1, hz]
    · simpa [mapCount, h1] using ih hs.2

theorem mapFind_eq_none_iff_mapCount_eq_zero {α : Type}
    (m : List (String × α)) (k : String) :
    mapFind m k = none ↔ mapCount m k = 0 := by
  induction m with
  | nil => simp [mapFind, mapCount]
  | cons hd tl ih =>
    by_cases h1 : k = hd.1
    · simp [mapFind, mapCount, h1]
    · simp [mapFind, mapCount, h1, Ne.symm h1, ih]

theorem mapCount_mapInsert_of_absent {α : Type} {m : List (String × α)}
    {k : String} (v : α) (h : mapCount m k = 0) :
    mapCount (mapInsert m k v) k = 1 := by
  induction m with
  | nil => simp [mapInsert, mapCount]
  | cons hd tl ih =>
    rw [mapCount] at h
    have h1 : ¬ hd.1 = k := by
      intro hk
      simp [hk] at h
    have htl : mapCount tl k = 0 := by simpa [h1] using h
    rw [mapInsert]
    by_cases h2 : strLt k hd.1
    · rw [if_pos h2, mapCount, mapCount, if_neg h1, htl]
      simp
    · have h3 : ¬ k = hd.1 := fun hk => h1 hk.symm
      rw [if_neg h2, if_neg h3, mapCount, if_neg h1, ih htl]

theorem mapCount_cons_self {α : Type} (k : String) (v : α)
    (l : List (String × α)) :
    mapCount ((k, v) :: l) k = 1 + mapCount l k := by
  simp [mapCount]

theorem mapCount_mapInsert_pos {α : Type} (m : List (String × α))
    (k : String) (v : α) : 0 < mapCount (mapInsert m k v) k := by
  induction m with
  | nil => simp [mapInsert, mapCount]
  | cons hd tl ih =>
    rw [mapInsert]
    by_cases h2 : strLt k hd.1
    · rw [if_pos h2, mapCount_cons_self]
      omega
    · rw [if_neg h2]
      by_cases h3 : k = hd.1
      · rw [if_pos h3, mapCount_cons_self]
        omega
      · rw [if_neg h3, mapCount]
        omega

theorem mapCount_mapInsert_ne {α : Type} (m : List (String × α))
    {n k : String} (v : α) (h : n ≠ k) :
    mapCount (mapInsert m k v) n = mapCount m n := by
  have hkn : ¬ k = n := fun hk => h hk.symm
  induction m with
  | nil => simp [mapInsert, mapCount, hkn]
  | cons hd tl ih =>
    rw [mapInsert]
    by_cases h2 : strLt k hd.1
    · rw [if_pos h2, mapCount, mapCount]
      simp [hkn]
    · rw [if_neg h2]
      by_cases h3 : k = hd.1
      · rw [if_pos h3, mapCount, mapCount, ← h3]
      · rw [if_neg h3, mapCount, mapCount, ih]

theorem mapCount_mapErase_self {α : Type} (m : List (String × α))
    (k : String) : mapCount (mapErase m k) k = mapCount m k - 1 := by
  induction m with
  | nil => simp [mapErase, mapCount]
  | cons hd tl ih =>
    rw [mapErase]
    by_cases h1 : k = hd.1
    · rw [if_pos h1, mapCount, if_pos h1.symm]
      omega
    · have h2 : ¬ hd.1 = k := fun hk => h1 hk.symm
      rw [if_neg h1, mapCount, mapCount, ih, if_neg h2]
      omega

theorem mapCount_mapErase_ne {α : Type} (m : List (String × α))
    {n k : String} (h : n ≠ k) :
    mapCount (mapErase m k) n = mapCount m n := by
  induction m with
  | nil => simp [mapErase]
  | cons hd tl ih =>
    rw [mapErase]
    by_cases h1 : k = hd.1
    · have h2 : ¬ hd.1 = n := fun hk => h (h1.trans hk).symm
      rw [if_pos h1, mapCount, if_neg h2]
      omega
    · rw [if_neg h1, mapCount, mapCount, ih]

theorem mapFind_mapErase_ne {α : Type} (m : List (String × α))
    {n k : String} (h : n ≠ k) :
    mapFind (mapErase m k) n = mapFind m n := by
  induction m with
  | nil => simp [mapErase]
  | cons hd tl ih =>
    rw [mapErase]
    by_cases h1 : k = hd.1
    · have h2 : ¬ n = hd.1 := fun hk => h (hk.trans h1.symm)
      rw [if_pos h1, mapFind, if_neg h2]
    · rw [if_neg h1, mapFind, mapFind, ih]

theorem count_listLoadedNodelets (m : RegMap) (n : String) :
    (Loader.listLoadedNodelets m).count n = mapCount m n := by
  induction m with
  | nil => rfl
  | cons hd tl ih =>
    rw [Loader.listLoadedNodelets, mapKeys] at ih ⊢
    rw [List.map_cons, List.count_cons, ih, mapCount]
    by_cases h1 : hd.1 = n
    · simp [h1]
      omega
    · simp [h1]

theorem mem_listLoadedNodelets_iff (m : RegMap) (n : String) :
    n ∈ Loader.listLoadedNodelets m ↔ ∃ v, mapFind m n = some v := by
  induction m with
  | nil => simp [Loader.listLoadedNodelets, mapKeys, mapFind]
  | cons hd tl ih =>
    rw [Loader.listLoadedNodelets, mapKeys] at ih ⊢
    by_cases h1 : n = hd.1
    · simp [mapFind, h1]
    · simp [mapFind, h1, ih]

theorem load_of_present (env : LoadEnv) (m : RegMap) (name type : String)
    (r : List (String × String)) (a : List String) (b : Bool)
    (h : 0 < mapCount m name) :
    Loader.load env m name type r a b =
      (false, m,
        [Event.logError
          ("Cannot load nodelet " ++ name ++ " for one exists with that name already")]) := by
  rw [Loader.load, if_pos h]

theorem load_success_count_pos (env : LoadEnv) (m : RegMap)
    (name type : String) (r : List (String × String)) (a : List String)
    (b : Bool) (h : (Loader.load env m name type r a b).1 = true) :
    0 < mapCount (Loader.load env m name type r a b).2.1 name := by
  rw [Loader.load] at h ⊢
  by_cases hc : mapCount m name > 0
  · simp [hc] at h
  · simp only [hc, if_false] at h ⊢
    cases hf : env.factory type with
    | throwsPluginlib w => simp [hf] at h
    | nullInstance => simp [hf] at h
    | ok p =>
      cases hi : env.init name with
      | ok =>
        simp only [hf, hi]
        exact mapCount_mapInsert_pos m name p
      | throwsPluginlib w => simp [hf, hi] at h

theorem load_map_cases (env : LoadEnv) (m : RegMap) (name type : String)
    (r : List (String × String)) (a : List String) (b : Bool) :
    (Loader.load env m name type r a b).2.1 = m ∨
    (mapCount m name = 0 ∧ ∃ p,
      (Loader.load env m name type r a b).2.1 = mapInsert m name p) := by
  rw [Loader.load]
  by_cases hc : mapCount m name > 0
  · rw [if_pos hc]
    left
    rfl
  · rw [if_neg hc]
    have h0 : mapCount m name = 0 := by omega
    cases hf : env.factory type with
    | throwsPluginlib w =>
      left
      rfl
    | nullInstance =>
      left
      rfl
    | ok p =>
      right
      refine ⟨h0, p, ?_⟩
      cases hi : env.init name <;> rfl

theorem unload_map_cases (m : RegMap) (name : String) :
    (Loader.unload m name).2.1 = m ∨
    (Loader.unload m name).2.1 = mapErase m name := by
  rw [Loader.unload]
  cases h : mapFind m name with
  | none =>
    left
    rfl
  | some v =>
    right
    rfl


/-!
Claim theorems.
-/

/-- C2: at teardown `Loader::~Loader` stops the worker pool first, then
clears the registry map of units, and only after that releases the worker
pool object; each of the three steps occurs exactly once in the destructor
trace, the pool is never released before the map is cleared, the map is
never cleared before the pool is stopped, and the final state has no
units, no running workers and no pool object. -/
theorem c2_teardown_ordering :
    (Loader.destructorTrace.indexOf TeardownEvent.poolStop <
        Loader.destructorTrace.indexOf TeardownEvent.unitsClear ∧
      Loader.destructorTrace.indexOf TeardownEvent.unitsClear <
        Loader.destructorTrace.indexOf TeardownEvent.poolRelease ∧
      Loader.destructorTrace.count TeardownEvent.poolStop = 1 ∧
      Loader.destructorTrace.count TeardownEvent.unitsClear = 1 ∧
      Loader.destructorTrace.count TeardownEvent.poolRelease = 1) ∧
    ∀ s : LoaderState,
      Loader.destructor s =
        ({ servicesPresent := false, poolRunning := false,
           poolPresent := false, nodelets := [] }, Loader.destructorTrace) := by
  refine ⟨⟨by decide, by decide, by decide, by decide, by decide⟩, ?_⟩
  intro s
  rfl

/-- C8: for every registry state and every name not present in the
registry map, `Loader::unload` returns failure and leaves the registry
completely unchanged, with no observable side effect. -/
theorem c8_unload_absent_name_no_effect (m : RegMap) (name : String)
    (h : mapFind m name = none) :
    Loader.unload m name = (false, m, []) := by
  rw [Loader.unload, h]

/-- Witness for C8 at a concrete input: unloading "n" from a registry
holding only "a" fails and changes nothing. -/
theorem c8_witness :
    mapFind [(("a" : String), (⟨1⟩ : Nodelet))] "n" = none ∧
    Loader.unload [("a", ⟨1⟩)] "n" = (false, [("a", ⟨1⟩)], []) :=
  ⟨by decide, c8_unload_absent_name_no_effect [("a", ⟨1⟩)] "n" (by decide)⟩

/-- C10: if the factory returns a null instance, `Loader::load` returns
failure with the registry unchanged and an empty event trace — so nothing
was inserted into the map, neither of the two dispatch queues was created,
and no diagnostic was emitted — whereas any environment whose factory
throws a `pluginlib::PluginlibException` instead makes the same load emit
a `ROS_ERROR` diagnostic. -/
theorem c10_null_instance_silent_failure (env : LoadEnv) (m : RegMap)
    (name type : String) (r : List (String × String)) (a : List String)
    (b : Bool) (h0 : mapCount m name = 0)
    (hf : env.factory type = FactoryOutcome.nullInstance) :
    Loader.load env m name type r a b = (false, m, []) ∧
    ∀ env2 : LoadEnv, ∀ w : String,
      env2.factory type = FactoryOutcome.throwsPluginlib w →
      Event.logError
          ("Failed to load nodelet [" ++ name ++ "] of type [" ++ type ++ "]: " ++ w)
        ∈ (Loader.load env2 m name type r a b).2.2 := by
  have hc : ¬ mapCount m name > 0 := by omega
  constructor
  · rw [Loader.load, if_neg hc, hf]
  · intro env2 w hw
    rw [Loader.load, if_neg hc, hw]
    cases hi : env2.init name <;> simp

/-- Witness for C10 at a concrete input: the null-returning factory makes
load fail silently on an empty registry, and the throwing factory logs. -/
theorem c10_witness :
    mapCount ([] : RegMap) "n" = 0 ∧
    nullEnv.factory "T" = FactoryOutcome.nullInstance ∧
    Loader.load nullEnv [] "n" "T" [] [] false = (false, [], []) ∧
    Event.logError "Failed to load nodelet [n] of type [T]: plugin error"
      ∈ (Loader.load throwEnv [] "n" "T" [] [] false).2.2 := by
  have h := c10_null_instance_silent_failure nullEnv [] "n" "T" [] [] false
    (by decide) (by decide)
  exact ⟨by decide, by decide, h.1,
    by simpa using h.2 throwEnv "plugin error" (by decide)⟩

/-- C5: for every registry state and every name already present as a key
in the registry map, `Loader::load` with that name returns failure with
the registry map unchanged (only logging an error); consequently no two
sequential load calls for the same name can both succeed — a load
performed after a successful load of the same name fails. -/
theorem c5_duplicate_name_load_fails_unchanged (env : LoadEnv) (m : RegMap)
    (name type : String) (r : List (String × String)) (a : List String)
    (b : Bool) :
    (0 < mapCount m name →
      Loader.load env m name type r a b =
        (false, m,
          [Event.logError
            ("Cannot load nodelet " ++ name ++ " for one exists with that name already")])) ∧
    ∀ env2 : LoadEnv, ∀ type2 : String, ∀ r2 : List (String × String),
      ∀ a2 : List String, ∀ b2 : Bool,
      (Loader.load env m name type r a b).1 = true →
      (Loader.load env2 (Loader.load env m name type r a b).2.1
        name type2 r2 a2 b2).1 = false := by
  constructor
  · intro h
    exact load_of_present env m name type r a b h
  · intro env2 type2 r2 a2 b2 hs
    have hp := load_success_count_pos env m name type r a b hs
    rw [load_of_present env2 (Loader.load env m name type r a b).2.1
      name type2 r2 a2 b2 hp]

/-- Witness for C5 at a concrete input: loading "n" into a registry that
already holds "n" fails and leaves the map unchanged, and two sequential
loads of "n" into an empty registry give one success then one failure. -/
theorem c5_witness :
    0 < mapCount [(("n" : String), (⟨7⟩ : Nodelet))] "n" ∧
    Loader.load okEnv [("n", ⟨7⟩)] "n" "T" [] [] false =
      (false, [("n", ⟨7⟩)],
        [Event.logError "Cannot load nodelet n for one exists with that name already"]) ∧
    (Loader.load okEnv [] "n" "T" [] [] false).1 = true ∧
    (Loader.load okEnv (Loader.load okEnv [] "n" "T" [] [] false).2.1
      "n" "T" [] [] false).1 = false := by
  refine ⟨by decide, ?_, by decide, ?_⟩
  · exact (c5_duplicate_name_load_fails_unchanged okEnv [("n", ⟨7⟩)] "n" "T"
      [] [] false).1 (by decide)
  · exact (c5_duplicate_name_load_fails_unchanged okEnv [] "n" "T"
      [] [] false).2 okEnv "T" [] [] false (by decide)

theorem mapFind_mapInsert_self {α : Type} (m : List (String × α))
    (k : String) (v : α) : mapFind (mapInsert m k v) k = some v := by
  induction m with
  | nil => simp [mapInsert, mapFind]
  | cons hd tl ih =>
    rw [mapInsert]
    by_cases h2 : strLt k hd.1
    · rw [if_pos h2, mapFind, if_pos rfl]
    · rw [if_neg h2]
      by_cases h3 : k = hd.1
      · rw [if_pos h3, mapFind, if_pos rfl]
      · rw [if_neg h3, mapFind, if_neg h3, ih]

theorem load_success_inserted (env : LoadEnv) (m : RegMap)
    (name type : String) (r : List (String × String)) (a : List String)
    (b : Bool) (h : (Loader.load env m name type r a b).1 = true) :
    mapCount m name = 0 ∧ ∃ p,
      (Loader.load env m name type r a b).2.1 = mapInsert m name p := by
  rw [Loader.load] at h ⊢
  by_cases hc : mapCount m name > 0
  · simp [hc] at h
  · have h0 : mapCount m name = 0 := by omega
    simp only [hc, if_false] at h ⊢
    cases hf : env.factory type with
    | throwsPluginlib w => simp [hf] at h
    | nullInstance => simp [hf] at h
    | ok p =>
      refine ⟨h0, p, ?_⟩
      cases hi : env.init name with
      | ok => simp [hf, hi]
      | throwsPluginlib w => simp [hf, hi]

theorem applyOp_preserves_count_one (env : LoadEnv) (m : RegMap)
    (name : String) (op : RegOp) (h1 : mapCount m name = 1)
    (hop : op ≠ RegOp.opUnload name ∧ op ≠ RegOp.opClear) :
    mapCount (applyOp env m op).2 name = 1 := by
  cases op with
  | opLoad n t r a b =>
    rw [applyOp]
    rcases load_map_cases env m n t r a b with hm | ⟨h0, p, hmap⟩
    · rw [hm]
      exact h1
    · rw [hmap]
      by_cases hn : n = name
      · rw [hn] at h0
        omega
      · rw [mapCount_mapInsert_ne m p (Ne.symm hn)]
        exact h1
  | opUnload n =>
    have hn : n ≠ name := by
      intro he
      exact hop.1 (by rw [he])
    rw [applyOp]
    rcases unload_map_cases m n with hm | hm
    · rw [hm]
      exact h1
    · rw [hm, mapCount_mapErase_ne m (Ne.symm hn)]
      exact h1
  | opClear => exact absurd rfl hop.2

theorem runOps_preserves_count_one (env : LoadEnv) (name : String)
    (ops : List RegOp) : ∀ m : RegMap, mapCount m name = 1 →
    (∀ op ∈ ops, op ≠ RegOp.opUnload name ∧ op ≠ RegOp.opClear) →
    mapCount (runOps env m ops) name = 1 := by
  induction ops with
  | nil =>
    intro m h1 _
    exact h1
  | cons op rest ih =>
    intro m h1 hops
    rw [runOps]
    exact ih (applyOp env m op).2
      (applyOp_preserves_count_one env m name op h1 (hops op (by simp)))
      (fun o ho => hops o (by simp [ho]))

/-- C1 counterexample: a load whose factory succeeds but whose
initialization entry point throws a `pluginlib::PluginlibException`
returns failure, yet the entry inserted before `init` remains in the
registry map under the requested name — a failed load does leave a
partial registry entry behind. -/
theorem c1_counterexample_init_exception_leaves_entry :
    (Loader.load badInitEnv [] "n" "T" [] [] false).1 = false ∧
    mapFind (Loader.load badInitEnv [] "n" "T" [] [] false).2.1 "n" =
      some ⟨0⟩ := by
  decide

/-- C1 as amended: a load that fails because the factory threw or
returned null leaves the registry map completely unchanged (hence no
entry appears under the requested name that was not there before); but a
load that fails because initialization threw leaves the freshly inserted
entry in the map under the requested name. -/
theorem c1_amended_failed_load_registry_effects (env : LoadEnv)
    (m : RegMap) (name type : String) (r : List (String × String))
    (a : List String) (b : Bool) :
    ((∀ p : Nodelet, env.factory type ≠ FactoryOutcome.ok p) →
      (Loader.load env m name type r a b).1 = false ∧
      (Loader.load env m name type r a b).2.1 = m) ∧
    (∀ p : Nodelet, ∀ w : String,
      env.factory type = FactoryOutcome.ok p →
      env.init name = InitOutcome.throwsPluginlib w →
      mapCount m name = 0 →
      (Loader.load env m name type r a b).1 = false ∧
      mapFind (Loader.load env m name type r a b).2.1 name = some p) := by
  constructor
  · intro hnp
    rw [Loader.load]
    by_cases hc : mapCount m name > 0
    · rw [if_pos hc]
      exact ⟨rfl, rfl⟩
    · rw [if_neg hc]
      cases hf : env.factory type with
      | throwsPluginlib w => exact ⟨rfl, rfl⟩
      | nullInstance => exact ⟨rfl, rfl⟩
      | ok p => exact absurd hf (hnp p)
  · intro p w hf hi h0
    have hc : ¬ mapCount m name > 0 := by omega
    rw [Loader.load, if_neg hc, hf, hi]
    exact ⟨rfl, mapFind_mapInsert_self m name p⟩

/-- Witness for C1 as amended: a throwing factory leaves an empty
registry empty, and an init exception leaves the inserted entry. -/
theorem c1_amended_witness :
    ((Loader.load throwEnv [] "n" "T" [] [] false).1 = false ∧
      (Loader.load throwEnv [] "n" "T" [] [] false).2.1 = []) ∧
    ((Loader.load badInitEnv [("a", ⟨1⟩)] "n" "T" [] [] false).1 = false ∧
      mapFind (Loader.load badInitEnv [("a", ⟨1⟩)] "n" "T" [] [] false).2.1
        "n" = some ⟨0⟩) := by
  constructor
  · exact (c1_amended_failed_load_registry_effects throwEnv [] "n" "T"
      [] [] false).1 (fun p h => by simp [throwEnv] at h)
  · exact (c1_amended_failed_load_registry_effects badInitEnv
      [("a", ⟨1⟩)] "n" "T" [] [] false).2 ⟨0⟩ "boom"
      (by decide) (by decide) (by decide)

/-- C3 counterexample: a Load request whose remap source and target lists
have different lengths does not make `serviceLoad` return false — with a
working factory the load proceeds and `serviceLoad` returns true. -/
theorem c3_counterexample_mismatch_load_succeeds :
    mismatchedReq.remap_source_args.length ≠
      mismatchedReq.remap_target_args.length ∧
    (LoaderROS.serviceLoad okEnv id [] mismatchedReq).1 = true := by
  decide

/-- C3 as amended: for every Load request in which the remap source and
target lists have different lengths, the Load operation does not return
false because of the mismatch — it returns exactly the result of the
underlying `Loader::load`, which is invoked with the empty remapping
table.  Each part is established here: the result equals that of the
empty-table load, the resulting registry is that of the empty-table load,
and the trace is the `ROS_ERROR` mismatch diagnostic followed by the
events of the empty-table load (so any `initCall` in it carries the empty
table). -/
theorem c3_amended_mismatch_result_is_load_result (env : LoadEnv)
    (resolve : String → String) (m : RegMap) (req : NodeletLoadRequest)
    (h : req.remap_source_args.length ≠ req.remap_target_args.length) :
    (LoaderROS.serviceLoad env resolve m req).1 =
      (Loader.load env m req.name req.type [] req.my_argv
        (req.bond_id ≠ "")).1 ∧
    (LoaderROS.serviceLoad env resolve m req).2.1 =
      (Loader.load env m req.name req.type [] req.my_argv
        (req.bond_id ≠ "")).2.1 ∧
    (LoaderROS.serviceLoad env resolve m req).2.2 =
      Event.logError "Bad remapppings provided, target and source of different length"
        :: (Loader.load env m req.name req.type [] req.my_argv
             (req.bond_id ≠ "")).2.2 := by
  rw [LoaderROS.serviceLoad, if_pos h]
  exact ⟨rfl, rfl, rfl⟩

/-- Witness for C3 as amended at a concrete mismatched request. -/
theorem c3_amended_witness :
    mismatchedReq.remap_source_args.length ≠
      mismatchedReq.remap_target_args.length ∧
    ((LoaderROS.serviceLoad okEnv id [] mismatchedReq).1 =
      (Loader.load okEnv [] mismatchedReq.name mismatchedReq.type []
        mismatchedReq.my_argv (mismatchedReq.bond_id ≠ "")).1 ∧
    (LoaderROS.serviceLoad okEnv id [] mismatchedReq).2.1 =
      (Loader.load okEnv [] mismatchedReq.name mismatchedReq.type []
        mismatchedReq.my_argv (mismatchedReq.bond_id ≠ "")).2.1 ∧
    (LoaderROS.serviceLoad okEnv id [] mismatchedReq).2.2 =
      Event.logError "Bad remapppings provided, target and source of different length"
        :: (Loader.load okEnv [] mismatchedReq.name mismatchedReq.type []
             mismatchedReq.my_argv (mismatchedReq.bond_id ≠ "")).2.2) :=
  ⟨by decide,
   c3_amended_mismatch_result_is_load_result okEnv id [] mismatchedReq
     (by decide)⟩

/-- C4: for every Load request in which the remap source and target lists
have different lengths, the load still proceeds — `serviceLoad` behaves
exactly like `Loader::load` invoked with the empty remapping table (so
the table passed on to unit initialization is empty), with only the
`ROS_ERROR` diagnostic prepended to the trace. -/
theorem c4_mismatch_proceeds_with_empty_table (env : LoadEnv)
    (resolve : String → String) (m : RegMap) (req : NodeletLoadRequest)
    (h : req.remap_source_args.length ≠ req.remap_target_args.length) :
    LoaderROS.serviceLoad env resolve m req =
      ((Loader.load env m req.name req.type [] req.my_argv
          (req.bond_id ≠ "")).1,
       (Loader.load env m req.name req.type [] req.my_argv
          (req.bond_id ≠ "")).2.1,
       Event.logError "Bad remapppings provided, target and source of different length"
         :: (Loader.load env m req.name req.type [] req.my_argv
              (req.bond_id ≠ "")).2.2) := by
  rw [LoaderROS.serviceLoad, if_pos h]

/-- Witness for C4 at a concrete mismatched request. -/
theorem c4_witness :
    mismatchedReq.remap_source_args.length ≠
      mismatchedReq.remap_target_args.length ∧
    LoaderROS.serviceLoad okEnv id [] mismatchedReq =
      ((Loader.load okEnv [] mismatchedReq.name mismatchedReq.type []
          mismatchedReq.my_argv (mismatchedReq.bond_id ≠ "")).1,
       (Loader.load okEnv [] mismatchedReq.name mismatchedReq.type []
          mismatchedReq.my_argv (mismatchedReq.bond_id ≠ "")).2.1,
       Event.logError "Bad remapppings provided, target and source of different length"
         :: (Loader.load okEnv [] mismatchedReq.name mismatchedReq.type []
              mismatchedReq.my_argv (mismatchedReq.bond_id ≠ "")).2.2) :=
  ⟨by decide,
   c4_mismatch_proceeds_with_empty_table okEnv id [] mismatchedReq
     (by decide)⟩

/-- C6: after a successful `load(n, ...)` the name `n` appears exactly
once in the sequence returned by `listLoadedNodelets`; it continues to
appear exactly once across any sequence of further registry operations
that contains no `unload(n)` and no `clear`; an `unload(n)` from such a
state succeeds and removes it; and after a `clear` it no longer
appears. -/
theorem c6_loaded_name_listed_exactly_once (env : LoadEnv) (m : RegMap)
    (name type : String) (r : List (String × String)) (a : List String)
    (b : Bool) (ops : List RegOp) :
    ((Loader.load env m name type r a b).1 = true →
      (Loader.listLoadedNodelets
        (Loader.load env m name type r a b).2.1).count name = 1) ∧
    ((Loader.listLoadedNodelets m).count name = 1 →
      (∀ op ∈ ops, op ≠ RegOp.opUnload name ∧ op ≠ RegOp.opClear) →
      (Loader.listLoadedNodelets (runOps env m ops)).count name = 1) ∧
    ((Loader.listLoadedNodelets m).count name = 1 →
      (Loader.unload m name).1 = true ∧
      (Loader.listLoadedNodelets
        (Loader.unload m name).2.1).count name = 0) ∧
    (Loader.listLoadedNodelets (Loader.clear m).2.1).count name = 0 := by
  refine ⟨?_, ?_, ?_, ?_⟩
  · intro hs
    obtain ⟨h0, p, hmap⟩ := load_success_inserted env m name type r a b hs
    rw [count_listLoadedNodelets, hmap]
    exact mapCount_mapInsert_of_absent p h0
  · intro h1 hops
    rw [count_listLoadedNodelets] at h1 ⊢
    exact runOps_preserves_count_one env name ops m h1 hops
  · intro h1
    rw [count_listLoadedNodelets] at h1
    cases hfind : mapFind m name with
    | none =>
      rw [mapFind_eq_none_iff_mapCount_eq_zero] at hfind
      omega
    | some u =>
      rw [Loader.unload, hfind]
      refine ⟨rfl, ?_⟩
      rw [count_listLoadedNodelets]
      show mapCount (mapErase m name) name = 0
      rw [mapCount_mapErase_self]
      omega
  · rfl

/-- Witness for C6 at concrete inputs: loading "n" into an empty registry
lists it once; it stays listed once across a load and unload of another
name; unloading "n" removes it; clearing removes it. -/
theorem c6_witness :
    ((Loader.load okEnv [] "n" "T" [] [] false).1 = true ∧
      (Loader.listLoadedNodelets
        (Loader.load okEnv [] "n" "T" [] [] false).2.1).count "n" = 1) ∧
    (Loader.listLoadedNodelets
      (runOps okEnv [("n", ⟨0⟩)]
        [RegOp.opLoad "x" "T" [] [] false,
         RegOp.opUnload "x"])).count "n" = 1 ∧
    ((Loader.unload [("n", ⟨0⟩)] "n").1 = true ∧
      (Loader.listLoadedNodelets
        (Loader.unload [("n", ⟨0⟩)] "n").2.1).count "n" = 0) ∧
    (Loader.listLoadedNodelets (Loader.clear [("n", ⟨0⟩)]).2.1).count "n" = 0 := by
  refine ⟨⟨by decide, ?_⟩, ?_, ?_, ?_⟩
  · exact (c6_loaded_name_listed_exactly_once okEnv [] "n" "T" [] []
      false []).1 (by decide)
  · exact (c6_loaded_name_listed_exactly_once okEnv [("n", ⟨0⟩)] "n" "T"
      [] [] false [RegOp.opLoad "x" "T" [] [] false,
        RegOp.opUnload "x"]).2.1 (by decide) (by decide)
  · exact (c6_loaded_name_listed_exactly_once okEnv [("n", ⟨0⟩)] "n" "T"
      [] [] false []).2.2.1 (by decide)
  · exact (c6_loaded_name_listed_exactly_once okEnv [("n", ⟨0⟩)] "n" "T"
      [] [] false []).2.2.2

/-- C7 counterexample: loading "b" and then "a" (both successful) makes
`listLoadedNodelets` return `["a", "b"]`, the ascending key order of the
underlying `std::map`, not the insertion order `["b", "a"]`. -/
theorem c7_counterexample_order_not_insertion :
    (Loader.load okEnv [] "b" "T" [] [] false).1 = true ∧
    (Loader.load okEnv regAfterB "a" "T" [] [] false).1 = true ∧
    Loader.listLoadedNodelets regAfterBA = ["a", "b"] ∧
    Loader.listLoadedNodelets regAfterBA ≠ ["b", "a"] := by
  decide

/-- C7 as amended: `listLoadedNodelets` returns a snapshot of exactly the
current keys of the registry map (a name is in the returned sequence iff
an entry with that key is in the map), and the order of the returned
sequence is the ascending key order maintained by the underlying
`std::map` representation — not the insertion order of the units. -/
theorem c7_amended_snapshot_sorted_keys (m : RegMap) :
    (∀ n, n ∈ Loader.listLoadedNodelets m ↔ ∃ v, mapFind m n = some v) ∧
    (keysSorted m → (Loader.listLoadedNodelets m).Pairwise strLt) := by
  constructor
  · exact fun n => mem_listLoadedNodelets_iff m n
  · intro hs
    exact hs.map Prod.fst (fun a b hab => hab)

/-- Witness for C7 as amended at a concrete registry. -/
theorem c7_amended_witness :
    ("a" ∈ Loader.listLoadedNodelets regAfterBA ↔
      ∃ v, mapFind regAfterBA "a" = some v) ∧
    keysSorted regAfterBA ∧
    (Loader.listLoadedNodelets regAfterBA).Pairwise strLt :=
  ⟨(c7_amended_snapshot_sorted_keys regAfterBA).1 "a", by decide,
   (c7_amended_snapshot_sorted_keys regAfterBA).2 (by decide)⟩

/-- C9: for every name present in the registry map, `Loader::unload`
first invokes the unit's `disable` operation and then erases the entry
(in that order in the trace), returning success with the registry map
`mapErase m name`; afterwards the name is absent from
`listLoadedNodelets` and every other entry is unchanged. -/
theorem c9_unload_present_disable_then_erase (m : RegMap) (name : String)
    (u : Nodelet) (hs : keysSorted m) (hf : mapFind m name = some u) :
    Loader.unload m name =
      (true, mapErase m name,
        [Event.unitDisable name, Event.eraseEntry name]) ∧
    name ∉ Loader.listLoadedNodelets (mapErase m name) ∧
    ∀ k, k ≠ name → mapFind (mapErase m name) k = mapFind m k := by
  refine ⟨by rw [Loader.unload, hf], ?_, ?_⟩
  · intro hmem
    rw [mem_listLoadedNodelets_iff] at hmem
    obtain ⟨v, hv⟩ := hmem
    have hle : mapCount m name ≤ 1 := mapCount_le_one_of_keysSorted hs name
    have hne : mapCount m name ≠ 0 := by
      intro h0
      have := (mapFind_eq_none_iff_mapCount_eq_zero m name).2 h0
      rw [hf] at this
      cases this
    have h3 : mapCount (mapErase m name) name = 0 := by
      rw [mapCount_mapErase_self]
      omega
    have h4 := (mapFind_eq_none_iff_mapCount_eq_zero
      (mapErase m name) name).2 h3
    rw [hv] at h4
    cases h4
  · intro k hk
    exact mapFind_mapErase_ne m hk

/-- Witness for C9 at a concrete registry holding "a" and "b". -/
theorem c9_witness :
    keysSorted [(("a" : String), (⟨1⟩ : Nodelet)), ("b", ⟨2⟩)] ∧
    mapFind [(("a" : String), (⟨1⟩ : Nodelet)), ("b", ⟨2⟩)] "a" =
      some ⟨1⟩ ∧
    Loader.unload [("a", ⟨1⟩), ("b", ⟨2⟩)] "a" =
      (true, mapErase [(("a" : String), (⟨1⟩ : Nodelet)), ("b", ⟨2⟩)] "a",
        [Event.unitDisable "a", Event.eraseEntry "a"]) ∧
    "a" ∉ Loader.listLoadedNodelets
      (mapErase [(("a" : String), (⟨1⟩ : Nodelet)), ("b", ⟨2⟩)] "a") ∧
    ∀ k, k ≠ "a" →
      mapFind (mapErase [(("a" : String), (⟨1⟩ : Nodelet)), ("b", ⟨2⟩)] "a") k =
        mapFind [(("a" : String), (⟨1⟩ : Nodelet)), ("b", ⟨2⟩)] k :=
  ⟨by decide, by decide,
   c9_unload_present_disable_then_erase [("a", ⟨1⟩), ("b", ⟨2⟩)] "a" ⟨1⟩
     (by decide) (by decide)⟩
